import Mathlib

/-!
Verification of the tabular normalization and derived-metric engine of the
Dashboard-V7 frontend.  Numbers are modelled as exact rationals (`ℚ`); a JS
number that is NaN or ±Infinity is represented indirectly: every operation
that could produce one is modelled as returning `none`/falling into the
branch the source takes for non-finite values.
-/

set_option maxRecDepth 4000

namespace Dashboard

/-- A raw cell value as it appears in a parsed export row: JS `undefined`
(absent property), `null`, a finite number, or a string. -/
inductive RawValue where
  | vundefined : RawValue
  | vnull : RawValue
  | vnum  : ℚ → RawValue
  | vstr  : String → RawValue
deriving DecidableEq, Repr

/-- A row object: an association list from column name to cell value
(a JS object parsed from JSON, keys in insertion order). -/
abbrev Row := List (String × RawValue)

/-- Property read `r[k]`: JS yields `undefined` when the key is absent. -/
def rget (r : Row) (k : String) : RawValue :=
  match r.find? (fun p => p.1 == k) with
  | some p => p.2
  | none => .vundefined

/-- `Object.keys(r)`: the key set of a row, in insertion order. -/
def rkeys (r : Row) : List String := r.map (·.1)

/-- The characters removed by JS `String.prototype.trim` (the common ones:
space, tab, LF, CR, VT, FF, NBSP, BOM). -/
def isJsWs (c : Char) : Bool :=
  c == ' ' || c == '\t' || c == '\n' || c == '\r' ||
  c == '\x0b' || c == '\x0c' || c == ' ' || c == '﻿'

/-- Trim JS whitespace from both ends of a character list. -/
def jsTrim (cs : List Char) : List Char :=
  ((cs.dropWhile isJsWs).reverse.dropWhile isJsWs).reverse

/-- Value of a decimal digit character, if it is one. -/
def decVal (c : Char) : Option Nat :=
  if c.isDigit then some (c.toNat - 48) else none

/-- Value of a hexadecimal digit character, if it is one. -/
def hexVal (c : Char) : Option Nat :=
  if c.isDigit then some (c.toNat - 48)
  else if 'a' ≤ c && c ≤ 'f' then some (c.toNat - 87)
  else if 'A' ≤ c && c ≤ 'F' then some (c.toNat - 55)
  else none

/-- Value of an octal digit character, if it is one. -/
def octVal (c : Char) : Option Nat :=
  if '0' ≤ c && c ≤ '7' then some (c.toNat - 48) else none

/-- Value of a binary digit character, if it is one. -/
def binVal (c : Char) : Option Nat :=
  if c == '0' then some 0 else if c == '1' then some 1 else none

/-- Take the longest prefix of characters accepted by `f`, returning their
digit values and the rest of the input. -/
def takeWhileVal (f : Char → Option Nat) : List Char → List Nat × List Char
  | [] => ([], [])
  | c :: cs =>
    match f c with
    | some d =>
      let (ds, rest) := takeWhileVal f cs
      (d :: ds, rest)
    | none => ([], c :: cs)

/-- Value of a digit list in the given base, most significant first. -/
def natOfDigits (b : Nat) (ds : List Nat) : Nat :=
  ds.foldl (fun a d => a * b + d) 0

/-- Exponent tail of a JS decimal literal: `[+-]? Digits`, which must consume
the whole rest of the input. -/
def parseExpTail (sgn mant : ℚ) (cs : List Char) : Option ℚ :=
  let (esgn, cs1) : ℤ × List Char :=
    match cs with
    | '+' :: t => (1, t)
    | '-' :: t => (-1, t)
    | _ => (1, cs)
  let (eds, cs2) := takeWhileVal decVal cs1
  if eds.isEmpty || !cs2.isEmpty then none
  else some (sgn * mant * (10 : ℚ) ^ (esgn * (natOfDigits 10 eds : ℤ)))

/-- JS string decimal literal: `[+-]? ( Digits [. Digits?] | . Digits )
( [eE] [+-]? Digits )?`, consuming the whole input.  `Infinity` is accepted
by JS but is not finite, so returning `none` for it is observationally the
same for every consumer (they all guard with `Number.isFinite`). -/
def parseDecCore (cs : List Char) : Option ℚ :=
  let (sgn, cs1) : ℚ × List Char :=
    match cs with
    | '+' :: t => (1, t)
    | '-' :: t => (-1, t)
    | _ => (1, cs)
  let (ip, cs2) := takeWhileVal decVal cs1
  let (hasDot, fp, cs3) : Bool × List Nat × List Char :=
    match cs2 with
    | '.' :: t =>
      let (ds, r) := takeWhileVal decVal t
      (true, ds, r)
    | _ => (false, [], cs2)
  if ip.isEmpty && (!hasDot || fp.isEmpty) then none
  else
    let mantissa : ℚ := (natOfDigits 10 ip : ℚ) + (natOfDigits 10 fp : ℚ) / (10 : ℚ) ^ fp.length
    match cs3 with
    | [] => some (sgn * mantissa)
    | 'e' :: t => parseExpTail sgn mantissa t
    | 'E' :: t => parseExpTail sgn mantissa t
    | _ => none

/-- Non-decimal JS numeric literal body (`0x…`, `0o…`, `0b…`): digits in the
given base, consuming the whole input. -/
def parseNonDec (b : Nat) (f : Char → Option Nat) (cs : List Char) : Option ℚ :=
  let (ds, rest) := takeWhileVal f cs
  if ds.isEmpty || !rest.isEmpty then none else some ((natOfDigits b ds : ℕ) : ℚ)

/-- Model of JS `Number(s)` restricted to its finite results: `some q` iff
`Number(s)` is a finite number of value `q`, `none` when it is NaN or
±Infinity.  Whitespace-only input yields `0`, per the JS grammar. -/
def jsNumber (s : String) : Option ℚ :=
  let t := jsTrim s.data
  match t with
  | [] => some 0
  | '0' :: 'x' :: r => parseNonDec 16 hexVal r
  | '0' :: 'X' :: r => parseNonDec 16 hexVal r
  | '0' :: 'o' :: r => parseNonDec 8 octVal r
  | '0' :: 'O' :: r => parseNonDec 8 octVal r
  | '0' :: 'b' :: r => parseNonDec 2 binVal r
  | '0' :: 'B' :: r => parseNonDec 2 binVal r
  | _ => parseDecCore t

/-- `toNumber` (EchoComboChart.tsx lines 19–29; identical copies in
GradebookComboChart.tsx and the page component): null/undefined/empty string
to null; a finite number passes through; otherwise stringify, trim, strip
all `%` and `,`, and parse, yielding null when not finite. -/
def toNumber : RawValue → Option ℚ
  | .vundefined => none
  | .vnull => none
  | .vnum q => some q
  | .vstr s =>
    if s = "" then none
    else
      let t := jsTrim s.data
      if t.isEmpty then none
      else
        let cleaned := t.filter (fun c => !(c == '%' || c == ','))
        jsNumber ⟨cleaned⟩

/-- `toPct0to100` (EchoComboChart.tsx lines 31–36, also GradebookComboChart.tsx):
coerce, then multiply by 100 — unconditionally, with no threshold test. -/
def toPct0to100 (v : RawValue) : Option ℚ :=
  match toNumber v with
  | none => none
  | some n => some (n * 100)

/-- JS `Math.round`: round to the nearest integer, halves toward +∞. -/
def jround (q : ℚ) : ℤ := ⌊q + 1/2⌋

/-- `clampInt` (EchoComboChart.tsx lines 38–40):
`Math.max(lo, Math.min(hi, Math.round(n)))`. -/
def clampInt (n lo hi : ℚ) : ℚ := max lo (min hi ((jround n : ℤ) : ℚ))

/-- The chart datum produced per row by the first EchoComboChart variant
(module label omitted: no claim concerns it). -/
structure Echo1Out where
  viewed : ℚ
  notViewed : ℚ
  total : ℚ
  avgViewPct : Option ℚ
  overallViewPct : Option ℚ
deriving DecidableEq, Repr

/-- Viewer-count column selection of the first variant (lines 60–62):
`"# of Students Viewing"` if any row has that property (even null-valued),
else `"# of Unique Viewers"`. -/
def echo1ViewersCol (rows : List Row) : String :=
  if rows.any (fun r => rget r "# of Students Viewing" != RawValue.vundefined) then
    "# of Students Viewing"
  else "# of Unique Viewers"

/-- Hint branch of the first variant (lines 73–76): clamp the rounded raw
viewer count into `[0, studentsTotal]`, then clamp the remainder. -/
def echo1Hint (vc : String) (t : ℚ) (r : Row) : Echo1Out :=
  let rawViewers : ℚ := (toNumber (rget r vc)).getD 0
  let total := t
  let viewed := clampInt rawViewers 0 t
  let notViewed := clampInt (total - viewed) 0 total
  { viewed := viewed, notViewed := notViewed, total := total,
    avgViewPct := toPct0to100 (rget r "Average View %"),
    overallViewPct := toPct0to100 (rget r "Overall View %") }

/-- Fallback branch of the first variant (lines 77–82): totals from the
per-row student count, `?? 0` defaults. -/
def echo1Else (vc : String) (r : Row) : Echo1Out :=
  let rawViewers : ℚ := (toNumber (rget r vc)).getD 0
  let nStudents : ℚ := (toNumber (rget r "# of Students")).getD 0
  let total : ℚ := ((jround (max rawViewers nStudents) : ℤ) : ℚ)
  let viewed : ℚ := ((jround rawViewers : ℤ) : ℚ)
  let notViewed : ℚ := max 0 (total - viewed)
  { viewed := viewed, notViewed := notViewed, total := total,
    avgViewPct := toPct0to100 (rget r "Average View %"),
    overallViewPct := toPct0to100 (rget r "Overall View %") }

/-- Per-row viewership computation of the first EchoComboChart variant
(lines 64–95).  `h` models the `studentsTotal` prop; the JS guard
`studentsTotal && studentsTotal > 0` selects the hint branch exactly when
the prop is a number greater than 0. -/
def echo1Row (vc : String) (h : Option ℚ) (r : Row) : Echo1Out :=
  match h with
  | some t => if 0 < t then echo1Hint vc t r else echo1Else vc r
  | none => echo1Else vc r

/-- The stacked `Bar` elements of the first variant (lines 160–174) are
unconditionally present in the returned JSX, whatever the data. -/
def echo1StackRendered (_data : List Echo1Out) : Bool := true

/-- `pickKey` (EchoComboChart.tsx lines 233–236, part_001 lines 31–34):
first candidate present in `keys`, else null. -/
def pickKey (keys : List String) (candidates : List String) : Option String :=
  candidates.find? (fun c => keys.contains c)

/-- The chart datum produced per row by the second EchoComboChart variant
(lines 274–296).  `total` is the local intermediate of the closure; the
module label is omitted (no claim concerns it). -/
structure Echo2Out where
  viewers : Option ℚ
  notViewing : Option ℚ
  total : Option ℚ
  overallPct : Option ℚ
  avgPct : Option ℚ
deriving DecidableEq, Repr

/-- Per-row map of the second EchoComboChart variant (lines 274–296):
no clamping of viewers against the total; `notViewing = max(0, total-viewers)`
only when both resolve; percents scaled by 100. -/
def echo2Row (viewersKey overallKey avgKey : Option String) (h : Option ℚ)
    (r : Row) : Echo2Out :=
  let viewers : Option ℚ :=
    match viewersKey with
    | some k => toNumber (rget r k)
    | none => none
  let total : Option ℚ :=
    match toNumber (rget r "# of Students") with
    | some t => some t
    | none =>
      match toNumber (rget r "# Students") with
      | some t => some t
      | none => h
  let notViewing : Option ℚ :=
    match viewers, total with
    | some v, some t => some (max 0 (t - v))
    | _, _ => none
  let overallPct : Option ℚ :=
    match overallKey with
    | some k => (toNumber (rget r k)).map (fun n => n * 100)
    | none => none
  let avgPct : Option ℚ :=
    match avgKey with
    | some k => (toNumber (rget r k)).map (fun n => n * 100)
    | none => none
  { viewers := viewers, notViewing := notViewing, total := total,
    overallPct := overallPct, avgPct := avgPct }

/-- `hasStack` (line 301): some datum has both stacked values non-null. -/
def hasStack (data : List Echo2Out) : Bool :=
  data.any (fun d => d.viewers.isSome && d.notViewing.isSome)

/-- Second-variant stacked bars (lines 352–370): rendered iff `hasStack`. -/
def echo2StackRendered (data : List Echo2Out) : Bool := hasStack data

/-- Second-variant fallback note (lines 400–404): shown iff `¬ hasStack`. -/
def echo2FallbackShown (data : List Echo2Out) : Bool := !hasStack data

/-- JS `x.toFixed(1)` on the rational model: nearest multiple of 1/10 with
ties toward +∞, rendered with exactly one fractional digit.  (JS negative
zero, unrepresentable in `ℚ`, is the one divergence.) -/
def toFixed1 (q : ℚ) : String :=
  let n : ℤ := ⌊q * 10 + 1/2⌋
  let sgn := if n < 0 then "-" else ""
  let m : ℕ := n.natAbs
  sgn ++ toString (m / 10) ++ "." ++ toString (m % 10)

/-- Thousands grouping of a reversed digit list (en-US: groups of three from
the right). -/
def groupRev : List Char → List Char
  | d1 :: d2 :: d3 :: d4 :: rest => d1 :: d2 :: d3 :: ',' :: groupRev (d4 :: rest)
  | ds => ds

/-- Decimal digits of a natural number with en-US thousands separators. -/
def groupDigits (n : Nat) : String :=
  ⟨(groupRev (toString n).data.reverse).reverse⟩

/-- `n.toLocaleString(undefined, {maximumFractionDigits: 2})` modelled for an
en-US default locale: round half away from zero to two decimals, drop
trailing fractional zeros, group the integer part by thousands. -/
def localeString2 (q : ℚ) : String :=
  let c : ℕ := (⌊|q| * 100 + 1/2⌋).toNat
  let sgn := if q < 0 && c != 0 then "-" else ""
  let ip := c / 100
  let fp := c % 100
  if fp = 0 then sgn ++ groupDigits ip
  else if fp % 10 = 0 then sgn ++ groupDigits ip ++ "." ++ toString (fp / 10)
  else if fp < 10 then sgn ++ groupDigits ip ++ ".0" ++ toString fp
  else sgn ++ groupDigits ip ++ "." ++ toString fp

/-- `formatNumberCell` (part_003 lines 57–61).  Both arms of its magnitude
test return the same locale rendering; the non-finite guard is unreachable
over `ℚ`. -/
def formatNumberCell (n : ℚ) : String := localeString2 n

/-- `formatPercentCell` (part_003 lines 63–68): coerce, multiply by 100,
one decimal, trailing `%`; empty string when coercion fails. -/
def formatPercentCell (v : RawValue) : String :=
  match toNumber v with
  | none => ""
  | some n => toFixed1 (n * 100) ++ "%"

/-- The `^[\d,\.\-]+%?$` test of part_003 line 82: one or more of
digit/comma/dot/minus, then an optional final `%`. -/
def numishRe (s : String) : Bool :=
  let body :=
    match s.data.reverse with
    | '%' :: rest => rest.reverse
    | _ => s.data
  !body.isEmpty && body.all (fun c => c.isDigit || c == ',' || c == '.' || c == '-')

/-- `formatCell` (part_003 lines 70–85), by case on the value's JS type.
`percentCols = []` models the omitted prop (`percentCols?.includes` falsy).
Branch order follows the source: null check, listed percent column,
auto-percent for `%`-titled columns with coerced value in `[0, 1.5]`, plain
number, numeric-looking string, passthrough. -/
def formatCell (key : String) (value : RawValue) (percentCols : List String) : String :=
  match value with
  | .vnull => ""
  | .vundefined => ""
  | .vnum q =>
    if percentCols.contains key then formatPercentCell (.vnum q)
    else if key.data.contains '%' && decide (0 ≤ q ∧ q ≤ 3/2) then
      toFixed1 (q * 100) ++ "%"
    else formatNumberCell q
  | .vstr s =>
    if percentCols.contains key then formatPercentCell (.vstr s)
    else
      match toNumber (.vstr s) with
      | some q =>
        if key.data.contains '%' && decide (0 ≤ q ∧ q ≤ 3/2) then
          toFixed1 (q * 100) ++ "%"
        else if numishRe s then formatNumberCell q
        else s
      | none => s

/-- The `cols` useMemo of `Table` (part_003 lines 163–175): explicit columns
filtered to those present in the first row's key set, falling back to all
keys when at most one requested column exists while the data has several.
`columns = none` models the omitted prop. -/
def tableCols (rows : List Row) (columns : Option (List String)) : List String :=
  match rows with
  | [] => []
  | r :: _ =>
    let keys := rkeys r
    match columns with
    | none => keys
    | some cols =>
      if cols.isEmpty then keys
      else
        let picked := cols.filter (fun c => keys.contains c)
        if picked.length ≤ 1 ∧ 1 < keys.length then keys else picked

/-- Does the first list start with the second? -/
def startsWithChars : List Char → List Char → Bool
  | _, [] => true
  | [], _ :: _ => false
  | h :: hs, p :: ps => h == p && startsWithChars hs ps

/-- Does the first list contain the second as a contiguous run? -/
def containsChars : List Char → List Char → Bool
  | [], pat => pat.isEmpty
  | h :: t, pat => startsWithChars (h :: t) pat || containsChars t pat

/-- Case-insensitive substring test (JS `/…/i.test(col)` with a literal
alternation pattern). -/
def containsCI (hay pat : String) : Bool :=
  containsChars (hay.toLower).data pat.data

/-- `isTextHeavyCol` (part_003 lines 88–90). -/
def isTextHeavyCol (c : String) : Bool :=
  ["title", "name", "media", "assignment", "page", "url", "link", "description"].any
    (fun p => containsCI c p)

/-- `isNumericishCol` (part_003 lines 92–94). -/
def isNumericishCol (c : String) : Bool :=
  ["%", "count", "views", "time", "duration", "avg", "total", "n_"].any
    (fun p => containsCI c p)

/-- The measured width fold of `buildColWidths` (lines 129–135): start from
the header's width, take each sampled cell's width when larger. -/
def maxMeasured (header : ℚ) (cells : List ℚ) : ℚ :=
  cells.foldl max header

/-- Per-column width computation of `buildColWidths` (part_003 lines
137–143) as a function of the measured maximum text width `m` (canvas text
measurement belongs to the environment): pad, ceil, clamp to
`[minPx, category cap]`, then tighten numeric-ish columns to ≤ 180. -/
def colWidthFromMax (c : String) (m : ℚ) (paddingPx minPx maxTextPx maxDefaultPx : ℤ) : ℤ :=
  let padded : ℤ := ⌈m + (paddingPx : ℚ)⌉
  let cap : ℤ := if isTextHeavyCol c then maxTextPx else maxDefaultPx
  let clamped : ℤ := max minPx (min padded cap)
  if isNumericishCol c && !isTextHeavyCol c then min clamped 180 else clamped

/-! ## Helper lemmas -/

theorem jround_mono {p q : ℚ} (h : p ≤ q) : jround p ≤ jround q :=
  Int.floor_le_floor (by linarith)

theorem jround_nonneg {q : ℚ} (h : 0 ≤ q) : 0 ≤ jround q :=
  Int.le_floor.mpr (by push_cast; linarith)

theorem jround_intCast (t : ℤ) : jround ((t : ℚ)) = t := by
  have h : (⌊(1/2 : ℚ)⌋ : ℤ) = 0 := by
    rw [Int.floor_eq_zero_iff]
    constructor <;> norm_num
  unfold jround
  rw [add_comm, Int.floor_add_int, h, zero_add]

theorem clampInt_int (raw : ℚ) (t : ℤ) :
    clampInt raw 0 (t : ℚ) = ((max 0 (min t (jround raw)) : ℤ) : ℚ) := by
  unfold clampInt
  push_cast
  rfl

/-- In the hint branch, with an integral hint `t > 0`: total is the hint,
viewed is the clamped rounded raw count, and not-viewed is exactly the
difference. -/
theorem echo1Hint_spec (vc : String) (r : Row) (t : ℤ) (ht : 0 < t) :
    (echo1Hint vc (t : ℚ) r).total = (t : ℚ) ∧
    (echo1Hint vc (t : ℚ) r).viewed
      = ((max 0 (min t (jround ((toNumber (rget r vc)).getD 0))) : ℤ) : ℚ) ∧
    (echo1Hint vc (t : ℚ) r).notViewed = (t : ℚ) - (echo1Hint vc (t : ℚ) r).viewed := by
  have hviewed : (echo1Hint vc (t : ℚ) r).viewed
      = ((max 0 (min t (jround ((toNumber (rget r vc)).getD 0))) : ℤ) : ℚ) := by
    show clampInt ((toNumber (rget r vc)).getD 0) 0 (t : ℚ) = _
    rw [clampInt_int]
  set k : ℤ := jround ((toNumber (rget r vc)).getD 0) with hk
  set v : ℤ := max 0 (min t k) with hv
  have h0v : (0 : ℤ) ≤ v := le_max_left _ _
  have hvt : v ≤ t := by omega
  have hnot : (echo1Hint vc (t : ℚ) r).notViewed = (t : ℚ) - (v : ℚ) := by
    show clampInt ((t : ℚ) - (echo1Hint vc (t : ℚ) r).viewed) 0 (t : ℚ) = _
    rw [hviewed, show (t : ℚ) - ((v : ℤ) : ℚ) = (((t - v : ℤ)) : ℚ) by push_cast; ring,
      clampInt_int, jround_intCast, show max 0 (min t (t - v)) = t - v by omega]
  exact ⟨rfl, hviewed, by rw [hnot, hviewed]⟩

/-- In the fallback branch, a non-negative (or defaulted) raw viewer count
gives non-negative counts summing to the total. -/
theorem echo1Else_invariants (vc : String) (r : Row)
    (hraw : 0 ≤ (toNumber (rget r vc)).getD 0) :
    (echo1Else vc r).viewed + (echo1Else vc r).notViewed = (echo1Else vc r).total ∧
    0 ≤ (echo1Else vc r).viewed ∧ 0 ≤ (echo1Else vc r).notViewed ∧
    0 ≤ (echo1Else vc r).total ∧ (echo1Else vc r).viewed ≤ (echo1Else vc r).total := by
  have hview : (echo1Else vc r).viewed
      = ((jround ((toNumber (rget r vc)).getD 0) : ℤ) : ℚ) := rfl
  have htot : (echo1Else vc r).total
      = ((jround (max ((toNumber (rget r vc)).getD 0)
          ((toNumber (rget r "# of Students")).getD 0)) : ℤ) : ℚ) := rfl
  have hnot : (echo1Else vc r).notViewed
      = max 0 ((echo1Else vc r).total - (echo1Else vc r).viewed) := rfl
  have h1 : jround ((toNumber (rget r vc)).getD 0)
      ≤ jround (max ((toNumber (rget r vc)).getD 0)
          ((toNumber (rget r "# of Students")).getD 0)) :=
    jround_mono (le_max_left _ _)
  have h2 : (0 : ℤ) ≤ jround ((toNumber (rget r vc)).getD 0) := jround_nonneg hraw
  have hvt : (echo1Else vc r).viewed ≤ (echo1Else vc r).total := by
    rw [hview, htot]; exact_mod_cast h1
  have hv0 : (0 : ℚ) ≤ (echo1Else vc r).viewed := by
    rw [hview]; exact_mod_cast h2
  refine ⟨?_, hv0, ?_, le_trans hv0 hvt, hvt⟩
  · rw [hnot, max_eq_right (by linarith)]; ring
  · rw [hnot]; exact le_max_left _ _

/-! ## Claims -/

/-- **C3**: the value coercer is total and follows the stated rules:
null/undefined/empty string give null, finite numbers pass through, strings
are trimmed, stripped of `%` and `,`, and parsed as decimals, with null for
an unparsable string; the five spec examples evaluate as stated. -/
theorem toNumber_total_and_examples :
    toNumber (.vstr "12.5%") = some (25/2) ∧
    toNumber (.vstr "1,234") = some 1234 ∧
    toNumber (.vstr "") = none ∧
    toNumber .vnull = none ∧
    toNumber .vundefined = none ∧
    toNumber (.vstr "abc") = none ∧
    (∀ q : ℚ, toNumber (.vnum q) = some q) ∧
    (∀ v : RawValue, toNumber v = none ∨ ∃ q, toNumber v = some q) := by
  refine ⟨by with_unfolding_all decide, by with_unfolding_all decide, rfl, rfl, rfl,
    by with_unfolding_all decide, fun q => rfl, ?_⟩
  intro v
  cases hv : toNumber v with
  | none => exact Or.inl rfl
  | some q => exact Or.inr ⟨q, rfl⟩

/-- **C6**: field resolution returns the first candidate present in the key
set (the cons recurrence), its result is always null or a present key, a
null result means no candidate is present, and an empty key set (empty row
set) yields null. -/
theorem pickKey_spec (keys cands : List String) :
    (∀ k, pickKey keys cands = some k → k ∈ keys ∧ k ∈ cands) ∧
    (pickKey keys cands = none → ∀ c ∈ cands, c ∉ keys) ∧
    (∀ c cs, pickKey keys (c :: cs) = if c ∈ keys then some c else pickKey keys cs) ∧
    pickKey [] cands = none := by
  refine ⟨?_, ?_, ?_, ?_⟩
  · intro k hk
    have h1 := List.find?_some hk
    have h2 := List.mem_of_find?_eq_some hk
    exact ⟨by simpa using h1, h2⟩
  · intro hn c hc hmem
    rw [pickKey, List.find?_eq_none] at hn
    exact absurd (by simpa using hmem) (by simpa using hn c hc)
  · intro c cs
    by_cases h : c ∈ keys
    · rw [pickKey, List.find?_cons_of_pos _ (by simpa using h)]
      rw [if_pos h]
    · rw [pickKey, List.find?_cons_of_neg _ (by simpa using h)]
      rw [if_neg h]
      rfl
  · exact List.find?_eq_none.mpr (fun x _ => by simp)

/-- **C1 counterexample**: the chart-side percent normalizer `toPct0to100`
has no 1.5 threshold: it maps 42 to 4200, not to 42 as the claim's
`normalizePercent(42) == 42` requires. -/
theorem toPct_no_threshold :
    toPct0to100 (RawValue.vnum 42) = some 4200 ∧ (4200 : ℚ) ≠ 42 := by
  constructor
  · show (some ((42 : ℚ) * 100) : Option ℚ) = some 4200
    norm_num
  · norm_num

/-- **C1 (amended)**: `toPct0to100` multiplies every coercible value by 100
unconditionally (null stays null); the ≤ 1.5 threshold rule lives only in
the table formatter's auto-percent path: on a `%`-titled column not in the
explicit percent list, a value in `[0, 1.5]` is rendered as value·100 with
one decimal and `%`, and a value above 1.5 is rendered as a plain
locale-formatted number, unchanged in scale. -/
theorem percent_normalization (q : ℚ) (percentCols : List String) (key : String)
    (hkey : key.data.contains '%' = true) (hnc : percentCols.contains key = false) :
    toPct0to100 .vnull = none ∧
    (∀ p : ℚ, toPct0to100 (.vnum p) = some (p * 100)) ∧
    (0 ≤ q → q ≤ 3/2 → formatCell key (.vnum q) percentCols = toFixed1 (q * 100) ++ "%") ∧
    (3/2 < q → formatCell key (.vnum q) percentCols = formatNumberCell q) := by
  have hnc' : key ∉ percentCols := by simpa using hnc
  have hkey' : '%' ∈ key.data := by simpa using hkey
  refine ⟨rfl, fun p => rfl, ?_, ?_⟩
  · intro h0 h1
    simp [formatCell, hnc', hkey', h0, h1]
  · intro hgt
    simp [formatCell, hnc', hkey', not_le.mpr hgt]

/-- **C1 witness**: concrete instances of the amended claim, including the
three spec examples on the display path where the threshold rule holds. -/
theorem percent_normalization_witness :
    formatCell "Overall View %" (RawValue.vnum (21/50)) [] = "42.0%" ∧
    formatCell "Overall View %" (RawValue.vnum (3/2)) [] = "150.0%" ∧
    formatCell "Overall View %" (RawValue.vnum 42) [] = "42" ∧
    toPct0to100 RawValue.vnull = none := by
  have h1 := percent_normalization (21/50) [] "Overall View %" (by decide) (by decide)
  have h2 := percent_normalization (3/2) [] "Overall View %" (by decide) (by decide)
  have h3 := percent_normalization 42 [] "Overall View %" (by decide) (by decide)
  refine ⟨?_, ?_, ?_, h1.1⟩
  · rw [h1.2.2.1 (by norm_num) (by norm_num)]
    with_unfolding_all decide
  · rw [h2.2.2.1 (by norm_num) (by norm_num)]
    with_unfolding_all decide
  · rw [h3.2.2.2 (by norm_num)]
    with_unfolding_all decide

/-- **C10**: a string cell matching the numeric-looking pattern that coerces
to a number, on a column that is neither a listed percent column nor
auto-percent eligible, is displayed as the locale reformatting of the
coerced number, not as the original string. -/
theorem formatCell_numish_reformat (key s : String) (percentCols : List String) (q : ℚ)
    (hn : toNumber (.vstr s) = some q)
    (hre : numishRe s = true)
    (hp : percentCols.contains key = false)
    (hauto : ¬(key.data.contains '%' = true ∧ 0 ≤ q ∧ q ≤ 3/2)) :
    formatCell key (.vstr s) percentCols = formatNumberCell q := by
  have hp' : key ∉ percentCols := by simpa using hp
  have hauto' : ¬('%' ∈ key.data ∧ 0 ≤ q ∧ q ≤ 3/2) := by
    rintro ⟨h1, h2⟩
    exact hauto ⟨by simpa using h1, h2⟩
  simp [formatCell, hp', hn, hauto', hre]

/-- **C10 witness**: `"42%"` in a plain numeric column displays as `"42"` —
the trailing `%` is silently dropped. -/
theorem formatCell_numish_reformat_witness :
    formatCell "Total Views" (RawValue.vstr "42%") [] = "42" ∧ ("42" : String) ≠ "42%" := by
  have h := formatCell_numish_reformat "Total Views" "42%" [] 42
    (by with_unfolding_all decide) (by decide) (by decide)
    (by
      intro hc
      have : ("Total Views".data.contains '%') = false := by decide
      rw [this] at hc
      exact absurd hc.1 (by decide))
  refine ⟨?_, by decide⟩
  rw [h]
  with_unfolding_all decide

/-- **C2 counterexample**: (i) the second chart variant does not clamp:
viewers 40 against total 30 gives 40 + 0 ≠ 30 (and viewed > total);
(ii) the first variant accepts a negative viewer string, deriving
viewed = −5 < 0; (iii) with a non-integral positive hint 10.5 the first
variant's counts sum to 11 ≠ 10.5. -/
theorem viewership_invariant_counterexample :
    ((echo2Row (some "# of Students Viewing") none none none
        [("# of Students Viewing", RawValue.vnum 40),
         ("# of Students", RawValue.vnum 30)]).viewers = some 40 ∧
      (echo2Row (some "# of Students Viewing") none none none
        [("# of Students Viewing", RawValue.vnum 40),
         ("# of Students", RawValue.vnum 30)]).notViewing = some 0 ∧
      (echo2Row (some "# of Students Viewing") none none none
        [("# of Students Viewing", RawValue.vnum 40),
         ("# of Students", RawValue.vnum 30)]).total = some 30 ∧
      (40 : ℚ) + 0 ≠ 30) ∧
    ((echo1Row "# of Unique Viewers" none
        [("# of Unique Viewers", RawValue.vstr "-5")]).viewed = -5 ∧
      ¬(0 ≤ (echo1Row "# of Unique Viewers" none
        [("# of Unique Viewers", RawValue.vstr "-5")]).viewed)) ∧
    ((echo1Row "# of Unique Viewers" (some (21/2))
        [("# of Unique Viewers", RawValue.vnum 1)]).viewed +
      (echo1Row "# of Unique Viewers" (some (21/2))
        [("# of Unique Viewers", RawValue.vnum 1)]).notViewed ≠
      (echo1Row "# of Unique Viewers" (some (21/2))
        [("# of Unique Viewers", RawValue.vnum 1)]).total) := by
  refine ⟨⟨?_, ?_, ?_, by norm_num⟩, ⟨?_, ?_⟩, ?_⟩ <;> with_unfolding_all decide

/-- **C2 (amended)**: for the first chart variant, whenever the hint is
absent or a positive integer and the row's viewer cell is absent or coerces
to a non-negative value, the derived triple satisfies
viewed + notViewed = total, all three are non-negative and viewed ≤ total. -/
theorem echo1_viewership_invariants (vc : String) (r : Row) (h : Option ℚ)
    (hint : h = none ∨ ∃ t : ℤ, h = some ((t : ℤ) : ℚ) ∧ 0 < t)
    (hraw : 0 ≤ (toNumber (rget r vc)).getD 0) :
    (echo1Row vc h r).viewed + (echo1Row vc h r).notViewed = (echo1Row vc h r).total ∧
    0 ≤ (echo1Row vc h r).viewed ∧
    0 ≤ (echo1Row vc h r).notViewed ∧
    0 ≤ (echo1Row vc h r).total ∧
    (echo1Row vc h r).viewed ≤ (echo1Row vc h r).total := by
  rcases hint with rfl | ⟨t, rfl, ht⟩
  · exact echo1Else_invariants vc r hraw
  · have hpos : (0 : ℚ) < ((t : ℤ) : ℚ) := by exact_mod_cast ht
    have hred : echo1Row vc (some ((t : ℤ) : ℚ)) r = echo1Hint vc ((t : ℤ) : ℚ) r := by
      simp [echo1Row, hpos]
    rw [hred]
    obtain ⟨h1, h2, h3⟩ := echo1Hint_spec vc r t ht
    set v : ℤ := max 0 (min t (jround ((toNumber (rget r vc)).getD 0))) with hv
    have h0v : (0 : ℤ) ≤ v := le_max_left _ _
    have hvt : v ≤ t := by omega
    have hvq : ((v : ℤ) : ℚ) ≤ ((t : ℤ) : ℚ) := by exact_mod_cast hvt
    refine ⟨by rw [h3, h1]; ring, by rw [h2]; exact_mod_cast h0v, ?_, le_of_lt hpos, ?_⟩
    · rw [h3, h2]
      linarith
    · rw [h1, h2]
      exact hvq

/-- **C2 witness**: the spec's end-to-end example row (viewers "18",
students "20") with integral hint 20. -/
theorem echo1_viewership_invariants_witness :
    (echo1Row "# of Students Viewing"
        (some ((20 : ℤ) : ℚ))
        [("Module", RawValue.vstr "Week 1"),
         ("# of Students Viewing", RawValue.vstr "18"),
         ("# of Students", RawValue.vstr "20")]).viewed +
      (echo1Row "# of Students Viewing" (some ((20 : ℤ) : ℚ))
        [("Module", RawValue.vstr "Week 1"),
         ("# of Students Viewing", RawValue.vstr "18"),
         ("# of Students", RawValue.vstr "20")]).notViewed =
      (echo1Row "# of Students Viewing" (some ((20 : ℤ) : ℚ))
        [("Module", RawValue.vstr "Week 1"),
         ("# of Students Viewing", RawValue.vstr "18"),
         ("# of Students", RawValue.vstr "20")]).total ∧
    0 ≤ (echo1Row "# of Students Viewing" (some ((20 : ℤ) : ℚ))
        [("Module", RawValue.vstr "Week 1"),
         ("# of Students Viewing", RawValue.vstr "18"),
         ("# of Students", RawValue.vstr "20")]).viewed ∧
    0 ≤ (echo1Row "# of Students Viewing" (some ((20 : ℤ) : ℚ))
        [("Module", RawValue.vstr "Week 1"),
         ("# of Students Viewing", RawValue.vstr "18"),
         ("# of Students", RawValue.vstr "20")]).notViewed ∧
    0 ≤ (echo1Row "# of Students Viewing" (some ((20 : ℤ) : ℚ))
        [("Module", RawValue.vstr "Week 1"),
         ("# of Students Viewing", RawValue.vstr "18"),
         ("# of Students", RawValue.vstr "20")]).total ∧
    (echo1Row "# of Students Viewing" (some ((20 : ℤ) : ℚ))
        [("Module", RawValue.vstr "Week 1"),
         ("# of Students Viewing", RawValue.vstr "18"),
         ("# of Students", RawValue.vstr "20")]).viewed ≤
      (echo1Row "# of Students Viewing" (some ((20 : ℤ) : ℚ))
        [("Module", RawValue.vstr "Week 1"),
         ("# of Students Viewing", RawValue.vstr "18"),
         ("# of Students", RawValue.vstr "20")]).total :=
  echo1_viewership_invariants "# of Students Viewing"
    [("Module", RawValue.vstr "Week 1"),
     ("# of Students Viewing", RawValue.vstr "18"),
     ("# of Students", RawValue.vstr "20")]
    (some ((20 : ℤ) : ℚ))
    (Or.inr ⟨20, rfl, by decide⟩)
    (by with_unfolding_all decide)

/-- **C4 counterexample**: the hint branch does not use the un-rounded
clamp the claim states: (i) raw "24.6" with hint 30 derives viewed = 25,
while clamp(24.6, 0, 30) = 24.6; (ii) with the non-integral hint 10.5 and
raw 1, notViewed = 10 ≠ total − viewed = 9.5. -/
theorem hint_branch_counterexample :
    ((echo1Row "# of Unique Viewers" (some ((30 : ℤ) : ℚ))
        [("# of Unique Viewers", RawValue.vstr "24.6")]).viewed = 25 ∧
      (echo1Row "# of Unique Viewers" (some ((30 : ℤ) : ℚ))
        [("# of Unique Viewers", RawValue.vstr "24.6")]).viewed ≠
        max 0 (min ((30 : ℤ) : ℚ)
          ((toNumber (rget [("# of Unique Viewers", RawValue.vstr "24.6")]
            "# of Unique Viewers")).getD 0))) ∧
    ((echo1Row "# of Unique Viewers" (some (21/2))
        [("# of Unique Viewers", RawValue.vnum 1)]).notViewed ≠
      (echo1Row "# of Unique Viewers" (some (21/2))
        [("# of Unique Viewers", RawValue.vnum 1)]).total -
      (echo1Row "# of Unique Viewers" (some (21/2))
        [("# of Unique Viewers", RawValue.vnum 1)]).viewed) := by
  refine ⟨⟨?_, ?_⟩, ?_⟩ <;> with_unfolding_all decide

/-- **C4 (amended)**: with a positive *integer* hint, total = hint,
viewed = clamp(round(rawViewerCount), 0, total) and
notViewed = total − viewed. -/
theorem echo1_hint_branch (vc : String) (r : Row) (t : ℤ) (ht : 0 < t) :
    (echo1Row vc (some ((t : ℤ) : ℚ)) r).total = (t : ℚ) ∧
    (echo1Row vc (some ((t : ℤ) : ℚ)) r).viewed
      = ((max 0 (min t (jround ((toNumber (rget r vc)).getD 0))) : ℤ) : ℚ) ∧
    (echo1Row vc (some ((t : ℤ) : ℚ)) r).notViewed
      = (echo1Row vc (some ((t : ℤ) : ℚ)) r).total
        - (echo1Row vc (some ((t : ℤ) : ℚ)) r).viewed := by
  have hpos : (0 : ℚ) < ((t : ℤ) : ℚ) := by exact_mod_cast ht
  have hred : echo1Row vc (some ((t : ℤ) : ℚ)) r = echo1Hint vc ((t : ℤ) : ℚ) r := by
    simp [echo1Row, hpos]
  rw [hred]
  obtain ⟨h1, h2, h3⟩ := echo1Hint_spec vc r t ht
  exact ⟨h1, h2, by rw [h3, h1]⟩

/-- **C4 witness**: hint 30 with raw 25 gives (25, 5, 30); with raw 40 the
over-report clamps to (30, 0, 30). -/
theorem echo1_hint_branch_witness :
    (echo1Row "# of Unique Viewers" (some ((30 : ℤ) : ℚ))
        [("# of Unique Viewers", RawValue.vnum 25)]).total = ((30 : ℤ) : ℚ) ∧
    (echo1Row "# of Unique Viewers" (some ((30 : ℤ) : ℚ))
        [("# of Unique Viewers", RawValue.vnum 25)]).viewed = 25 ∧
    (echo1Row "# of Unique Viewers" (some ((30 : ℤ) : ℚ))
        [("# of Unique Viewers", RawValue.vnum 25)]).notViewed = 5 ∧
    (echo1Row "# of Unique Viewers" (some ((30 : ℤ) : ℚ))
        [("# of Unique Viewers", RawValue.vnum 40)]).viewed = 30 ∧
    (echo1Row "# of Unique Viewers" (some ((30 : ℤ) : ℚ))
        [("# of Unique Viewers", RawValue.vnum 40)]).notViewed = 0 := by
  obtain ⟨t1, v1, n1⟩ := echo1_hint_branch "# of Unique Viewers"
    [("# of Unique Viewers", RawValue.vnum 25)] 30 (by decide)
  obtain ⟨t2, v2, n2⟩ := echo1_hint_branch "# of Unique Viewers"
    [("# of Unique Viewers", RawValue.vnum 40)] 30 (by decide)
  refine ⟨t1, ?_, ?_, ?_, ?_⟩
  · rw [v1]
    with_unfolding_all decide
  · rw [n1, t1, v1]
    with_unfolding_all decide
  · rw [v2]
    with_unfolding_all decide
  · rw [n2, t2, v2]
    with_unfolding_all decide

/-- **C5 counterexample**: in the first chart variant a row with no
resolvable viewer count, no per-row student count and no hint degrades to
the *zero* triple (the fields are numbers, not nulls), and the stacked bars
are still rendered — zero-height bars, not an omitted series. -/
theorem echo1_zero_not_null :
    (echo1Row "# of Unique Viewers" none []).viewed = 0 ∧
    (echo1Row "# of Unique Viewers" none []).notViewed = 0 ∧
    (echo1Row "# of Unique Viewers" none []).total = 0 ∧
    echo1StackRendered [echo1Row "# of Unique Viewers" none []] = true := by
  refine ⟨?_, ?_, ?_, rfl⟩ <;> with_unfolding_all decide

/-- **C5 (amended)**: in the second chart variant, rows whose viewer cell
does not coerce (or with no viewer column), with unparsable/absent student
counts and no hint, degrade to null viewers/notViewing/total, and the
stacked series is suppressed with the fallback note shown. -/
theorem echo2_null_degradation (vKey oKey aKey : Option String) (rows : List Row)
    (hv : ∀ r ∈ rows, ∀ k, vKey = some k → toNumber (rget r k) = none)
    (hs1 : ∀ r ∈ rows, toNumber (rget r "# of Students") = none)
    (hs2 : ∀ r ∈ rows, toNumber (rget r "# Students") = none) :
    (∀ r ∈ rows, (echo2Row vKey oKey aKey none r).viewers = none ∧
      (echo2Row vKey oKey aKey none r).notViewing = none ∧
      (echo2Row vKey oKey aKey none r).total = none) ∧
    hasStack (rows.map (echo2Row vKey oKey aKey none)) = false ∧
    echo2StackRendered (rows.map (echo2Row vKey oKey aKey none)) = false ∧
    echo2FallbackShown (rows.map (echo2Row vKey oKey aKey none)) = true := by
  have key : ∀ r ∈ rows, (echo2Row vKey oKey aKey none r).viewers = none ∧
      (echo2Row vKey oKey aKey none r).notViewing = none ∧
      (echo2Row vKey oKey aKey none r).total = none := by
    intro r hr
    cases vKey with
    | none => simp [echo2Row, hs1 r hr, hs2 r hr]
    | some k => simp [echo2Row, hv r hr k rfl, hs1 r hr, hs2 r hr]
  have hstack : hasStack (rows.map (echo2Row vKey oKey aKey none)) = false := by
    rw [hasStack]
    simp only [List.any_eq_false]
    intro d hd
    obtain ⟨r, hr, rfl⟩ := List.mem_map.mp hd
    simp [(key r hr).1]
  exact ⟨key, hstack, hstack, by rw [echo2FallbackShown, hstack]; rfl⟩

/-- **C5 witness**: a single row carrying only a module label, with a
viewer column name that is absent from the row. -/
theorem echo2_null_degradation_witness :
    (∀ r ∈ [[("Module", RawValue.vstr "Week 1")]],
      (echo2Row (some "# of Students Viewing") none none none r).viewers = none ∧
      (echo2Row (some "# of Students Viewing") none none none r).notViewing = none ∧
      (echo2Row (some "# of Students Viewing") none none none r).total = none) ∧
    hasStack ([[("Module", RawValue.vstr "Week 1")]].map
      (echo2Row (some "# of Students Viewing") none none none)) = false ∧
    echo2StackRendered ([[("Module", RawValue.vstr "Week 1")]].map
      (echo2Row (some "# of Students Viewing") none none none)) = false ∧
    echo2FallbackShown ([[("Module", RawValue.vstr "Week 1")]].map
      (echo2Row (some "# of Students Viewing") none none none)) = true :=
  echo2_null_degradation (some "# of Students Viewing") none none
    [[("Module", RawValue.vstr "Week 1")]]
    (by
      intro r hr k hk
      obtain rfl : r = [("Module", RawValue.vstr "Week 1")] := by simpa using hr
      obtain rfl : k = "# of Students Viewing" := by
        injection hk with hk
        exact hk.symm
      rfl)
    (by
      intro r hr
      obtain rfl : r = [("Module", RawValue.vstr "Week 1")] := by simpa using hr
      rfl)
    (by
      intro r hr
      obtain rfl : r = [("Module", RawValue.vstr "Week 1")] := by simpa using hr
      rfl)

/-- **C7 counterexample**: the first chart variant declares the stacked
`Bar` elements unconditionally — with an empty data set (so no row at all
has the non-null pair) the bars are still rendered, against the claimed
"if and only if". -/
theorem echo1_unconditional_bars :
    echo1StackRendered ([] : List Echo1Out) = true ∧
    ¬∃ d : Echo1Out, d ∈ ([] : List Echo1Out) := by
  exact ⟨rfl, by simp⟩

/-- **C7 (amended)**: in the second chart variant the stacked series is
rendered iff some row has both values non-null, the fallback note shows
iff no row has, and a row's notViewing is non-null iff both its viewer
count and its total resolve. -/
theorem echo2_stack_iff (vKey oKey aKey : Option String) (h : Option ℚ) (rows : List Row) :
    (echo2StackRendered (rows.map (echo2Row vKey oKey aKey h)) = true ↔
      ∃ r ∈ rows, (echo2Row vKey oKey aKey h r).viewers ≠ none ∧
        (echo2Row vKey oKey aKey h r).notViewing ≠ none) ∧
    (echo2FallbackShown (rows.map (echo2Row vKey oKey aKey h)) = true ↔
      ¬∃ r ∈ rows, (echo2Row vKey oKey aKey h r).viewers ≠ none ∧
        (echo2Row vKey oKey aKey h r).notViewing ≠ none) ∧
    (∀ r : Row, (echo2Row vKey oKey aKey h r).notViewing ≠ none ↔
      ((echo2Row vKey oKey aKey h r).viewers ≠ none ∧
        (echo2Row vKey oKey aKey h r).total ≠ none)) := by
  have base : hasStack (rows.map (echo2Row vKey oKey aKey h)) = true ↔
      ∃ r ∈ rows, (echo2Row vKey oKey aKey h r).viewers ≠ none ∧
        (echo2Row vKey oKey aKey h r).notViewing ≠ none := by
    rw [hasStack]
    simp only [List.any_eq_true, Bool.and_eq_true, Option.isSome_iff_ne_none]
    constructor
    · rintro ⟨x, hx, hprop⟩
      obtain ⟨r, hr, rfl⟩ := List.mem_map.mp hx
      exact ⟨r, hr, hprop⟩
    · rintro ⟨r, hr, hprop⟩
      exact ⟨echo2Row vKey oKey aKey h r, List.mem_map_of_mem _ hr, hprop⟩
  refine ⟨base, ?_, ?_⟩
  · rw [echo2FallbackShown]
    cases hcs : hasStack (rows.map (echo2Row vKey oKey aKey h)) with
    | true =>
      simp only [Bool.not_true]
      constructor
      · intro hfalse
        exact absurd hfalse (by simp)
      · intro hne
        exact absurd (base.mp hcs) hne
    | false =>
      simp only [Bool.not_false, true_iff]
      intro hex
      have hcontr := base.mpr hex
      rw [hcs] at hcontr
      exact Bool.noConfusion hcontr
  · intro r
    have hnv : (echo2Row vKey oKey aKey h r).notViewing =
        (match (echo2Row vKey oKey aKey h r).viewers,
          (echo2Row vKey oKey aKey h r).total with
        | some v, some t => some (max 0 (t - v))
        | _, _ => none) := rfl
    rw [hnv]
    cases (echo2Row vKey oKey aKey h r).viewers <;>
      cases (echo2Row vKey oKey aKey h r).total <;> simp

/-- **C8**: the displayed column list is the requested list filtered to the
keys present in the first row (in requested order — a sublist of the
request whose members are exactly the requested-and-present names), except
that when at most one requested column is present while the data has more
than one column, all keys are shown instead. -/
theorem tableCols_spec (r : Row) (rest : List Row) (cols : List String)
    (hne : cols ≠ []) :
    (tableCols (r :: rest) (some cols)
      = if (cols.filter (fun c => (rkeys r).contains c)).length ≤ 1 ∧ 1 < (rkeys r).length
        then rkeys r
        else cols.filter (fun c => (rkeys r).contains c)) ∧
    (cols.filter (fun c => (rkeys r).contains c)).Sublist cols ∧
    (∀ c, c ∈ cols.filter (fun c => (rkeys r).contains c) ↔ (c ∈ cols ∧ c ∈ rkeys r)) := by
  refine ⟨?_, List.filter_sublist _, ?_⟩
  · have h0 : cols.isEmpty = false := by
      cases cols with
      | nil => exact absurd rfl hne
      | cons a l => rfl
    simp only [tableCols, h0, Bool.false_eq_true, if_false]
  · intro c
    simp [List.mem_filter]

/-- **C8 witness**: keys A,B,C with request [C,A] keeps [C,A] (requested
order); request [Z,A] matches only one column, so all keys are shown. -/
theorem tableCols_spec_witness :
    tableCols [[("A", RawValue.vnum 1), ("B", RawValue.vnum 2), ("C", RawValue.vnum 3)]]
      (some ["C", "A"]) = ["C", "A"] ∧
    tableCols [[("A", RawValue.vnum 1), ("B", RawValue.vnum 2), ("C", RawValue.vnum 3)]]
      (some ["Z", "A"]) = ["A", "B", "C"] := by
  have h1 := (tableCols_spec [("A", RawValue.vnum 1), ("B", RawValue.vnum 2),
    ("C", RawValue.vnum 3)] [] ["C", "A"] (by decide)).1
  have h2 := (tableCols_spec [("A", RawValue.vnum 1), ("B", RawValue.vnum 2),
    ("C", RawValue.vnum 3)] [] ["Z", "A"] (by decide)).1
  constructor
  · rw [h1]
    with_unfolding_all decide
  · rw [h2]
    with_unfolding_all decide

/-- **C9 counterexample**: the numeric-ish tightening to 180px undercuts a
configured minimum above 180: with `minPx = 200` the numeric-ish column
"Total Views" gets width 180 < 200. -/
theorem colWidth_minPx_counterexample :
    colWidthFromMax "Total Views" 10 22 200 520 320 = 180 ∧ ¬((200 : ℤ) ≤ 180) := by
  refine ⟨?_, by decide⟩
  with_unfolding_all decide

/-- **C9 (amended)**: the column width estimate is monotonically
non-decreasing in the measured maximum text width, and is ≥ the configured
minimum whenever `minPx ≤ 180` (as at every call site) or the column is not
numeric-ish; the numeric-ish 180px tightening is the only exception. -/
theorem colWidth_mono_and_min (c : String) (m m' : ℚ) (pad minPx maxT maxD : ℤ)
    (hmm : m ≤ m') :
    colWidthFromMax c m pad minPx maxT maxD ≤ colWidthFromMax c m' pad minPx maxT maxD ∧
    (minPx ≤ 180 → minPx ≤ colWidthFromMax c m pad minPx maxT maxD) ∧
    ((isNumericishCol c && !isTextHeavyCol c) = false →
      minPx ≤ colWidthFromMax c m pad minPx maxT maxD) := by
  have hceil : ⌈m + (pad : ℚ)⌉ ≤ ⌈m' + (pad : ℚ)⌉ := Int.ceil_le_ceil (by linarith)
  simp only [colWidthFromMax]
  set p := ⌈m + (pad : ℚ)⌉ with hpdef
  set p' := ⌈m' + (pad : ℚ)⌉ with hpdef2
  set cap : ℤ := if isTextHeavyCol c then maxT else maxD with hcap
  cases hnum : (isNumericishCol c && !isTextHeavyCol c) with
  | false =>
    simp only [Bool.false_eq_true, if_false]
    refine ⟨?_, ?_, ?_⟩ <;> intros <;> omega
  | true =>
    simp only [eq_self_iff_true, if_true, Bool.true_eq_false, false_implies, and_true]
    refine ⟨?_, ?_⟩
    · omega
    · intro hle
      omega

/-- **C9 witness**: a text-heavy column with the call-site configuration. -/
theorem colWidth_mono_and_min_witness :
    colWidthFromMax "Media Title" 10 22 70 520 320 ≤
      colWidthFromMax "Media Title" 400 22 70 520 320 ∧
    ((70 : ℤ) ≤ 180 → 70 ≤ colWidthFromMax "Media Title" 10 22 70 520 320) ∧
    ((isNumericishCol "Media Title" && !isTextHeavyCol "Media Title") = false →
      70 ≤ colWidthFromMax "Media Title" 10 22 70 520 320) :=
  colWidth_mono_and_min "Media Title" 10 400 22 70 520 320 (by norm_num)

end Dashboard
